import Mathlib

/-!
# Verification of the agent execution and log reconstruction pipeline

Shallow embedding of the core of the `claudeaie` repository:

* `XResearchAgent.execute` (src/agents/xresearch-agent/agent.ts): the
  message-stream session loop, cost accounting, tool tallies, error
  accumulation and result construction;
* `NextJSAppGeneratorAgent.execute` (src/agents/nextjs-app-generator/agent.ts):
  the text-concatenation session loop;
* the log route (`GET /api/agent/logs`): task window selection
  (`findIndex` on `Task ID:`), `groupLogLines`, `isBlockStart`,
  `detectLogType`;
* the SSE route (`GET /api/agent/stream`): initial replay, the 1-second
  poll callback, termination and abort behaviour;
* `AgentRegistry.loadAllAgents` / `loadAgent` (src/agents/registry.ts).

JavaScript strings are modelled as Lean `String`; `String.includes` as a
naive substring search over `String.data`; numbers holding token counts as
`Int` (with `x || 0` as `Option.getD 0`); USD amounts as `ℚ` (the usual
exact idealisation of the JS floating-point arithmetic); wall-clock values
(`Date.now()`, `new Date().toISOString()`) as explicit parameters, since
they are fresh inputs on every call.
-/

/-! ## JavaScript string primitives -/

/-- Is `pat` an initial segment of `s` (character lists)? -/
def charsBegin : List Char → List Char → Bool
  | [], _ => true
  | _ :: _, [] => false
  | a :: as, b :: bs => a == b && charsBegin as bs

/-- Does `pat` occur contiguously inside `s` (character lists)? -/
def charsHave (pat : List Char) : List Char → Bool
  | [] => pat.isEmpty
  | c :: rest => charsBegin pat (c :: rest) || charsHave pat rest

/-- JS `s.includes(pat)`. -/
def jsIncludes (s pat : String) : Bool := charsHave pat.data s.data

/-- JS `s.startsWith(pat)`. -/
def jsBegins (s pat : String) : Bool := charsBegin pat.data s.data

/-- JS `s.trim()` (ASCII whitespace, which is all the sources use). -/
def jsTrim (s : String) : String :=
  String.mk (((s.data.dropWhile Char.isWhitespace).reverse.dropWhile Char.isWhitespace).reverse)

/-- JS `s.toLowerCase()` (ASCII, which is all the sources use). -/
def jsLower (s : String) : String := String.mk (s.data.map Char.toLower)

/-- JS `array.join(sep)` for the line lists of `groupLogLines`
(`blockLines.join('\n')`). -/
def joinLines : List String → String
  | [] => ""
  | [l] => l
  | l :: rest => l ++ "\n" ++ joinLines rest

/-! ## Stream messages and usage (Claude Agent SDK message shapes)

`usage.input_tokens || 0` etc. are modelled with `Option Int` fields
defaulting to `0`. -/

/-- Token usage attached to a `result` message. -/
structure Usage where
  input_tokens : Option Int := none
  output_tokens : Option Int := none
  cache_creation_input_tokens : Option Int := none
  cache_read_input_tokens : Option Int := none
deriving DecidableEq

/-- A tweet extracted from a text block; the JSON payload is opaque to the
session logic, which only ever counts and concatenates tweets. -/
structure Tweet where
  raw : String
deriving DecidableEq

/-- One content block of an assistant message. -/
inductive ContentBlock where
  | text (body : String)
  | thinking (body : String)
  | toolUse (name id : String)
  | toolResult (toolUseId : String) (isError : Bool) (content : Option String)
  | other (kind : String)
deriving DecidableEq

/-- One message of the asynchronous stream returned by `query()`. -/
inductive StreamMessage where
  /-- Case `type === 'system' && subtype === 'init'`. -/
  | init (sessionId : Option String) (model : String) (tools : List String)
  /-- Case `type === 'assistant'` with a content-block array. -/
  | assistant (content : List ContentBlock)
  /-- Case `type === 'result'`; here `none` models a result without a usable `usage`. -/
  | result (usage : Option Usage)
  /-- any other message type (e.g. `user`); the loop only counts it. -/
  | otherMsg (kind : String)
deriving DecidableEq

/-! ## CostModel (agent.ts lines 204–221, the per-step cost calculation) -/

/-- Per-step cost in USD, Sonnet pricing as hard-coded in the source:
`(input/1e6)*3.0 + (output/1e6)*15.0 + (cacheCreation/1e6)*3.75 +
(cacheRead/1e6)*0.30`. -/
def stepCost (input output cacheCreation cacheRead : Int) : ℚ :=
  (input : ℚ) / 1000000 * 3.0
    + (output : ℚ) / 1000000 * 15.0
    + (cacheCreation : ℚ) / 1000000 * 3.75
    + (cacheRead : ℚ) / 1000000 * 0.30

/-- The running cost accumulator `researchData.cost_tracking`. -/
structure CostTracking where
  total_input_tokens : Int
  total_output_tokens : Int
  total_cache_creation_tokens : Int
  total_cache_read_tokens : Int
  total_cost_usd : ℚ
deriving DecidableEq

/-- Initial `cost_tracking`: all-zero totals. -/
def CostTracking.init : CostTracking :=
  { total_input_tokens := 0
    total_output_tokens := 0
    total_cache_creation_tokens := 0
    total_cache_read_tokens := 0
    total_cost_usd := 0 }

/-- The cost-tracking update performed for a `result` message with usage
(lines 204–221 of agent.ts). -/
def applyUsage (ct : CostTracking) (u : Usage) : CostTracking :=
  let stepInput := u.input_tokens.getD 0
  let stepOutput := u.output_tokens.getD 0
  let stepCacheCreation := u.cache_creation_input_tokens.getD 0
  let stepCacheRead := u.cache_read_input_tokens.getD 0
  { total_input_tokens := ct.total_input_tokens + stepInput
    total_output_tokens := ct.total_output_tokens + stepOutput
    total_cache_creation_tokens := ct.total_cache_creation_tokens + stepCacheCreation
    total_cache_read_tokens := ct.total_cache_read_tokens + stepCacheRead
    total_cost_usd := ct.total_cost_usd
      + stepCost stepInput stepOutput stepCacheCreation stepCacheRead }

/-! ## ExecutionSession: `XResearchAgent.execute` (src/agents/xresearch-agent/agent.ts)

`addLog` builds entries whose `id` (`Date.now()-Math.random()`) and
`timestamp` (`new Date().toISOString()`) are fresh wall-clock values and
whose `data` payload is debug-only; the session logic reads back neither,
so the model keeps the `level` and `message` fields. -/

/-- A log entry as pushed by `addLog` (level and human message). -/
structure AgentLog where
  level : String
  message : String
deriving DecidableEq

/-- Outcome of the best-effort tweet extraction applied to a text block that
contains `"tweets"`: the regex `/\{.*"tweets".*\}/s` fails to match, or
`JSON.parse` throws, or a tweet array is produced.  The extraction itself is
an opaque JS library call and is passed in as a parameter. -/
inductive TweetParse where
  | noMatch
  | parseError (e : String)
  | parsed (tweets : List Tweet)

/-- State `researchData` plus the session-owned `logs` array. -/
structure SessionState where
  session_id : Option String
  message_count : Int
  tweets : List Tweet
  tool_calls : List (String × Nat)
  errors : List String
  cost : CostTracking
  logs : List AgentLog
deriving DecidableEq

/-- Source `if (!tool_calls[name]) tool_calls[name] = 0; tool_calls[name]++` on a
JS object, whose key order is insertion order. -/
def bumpTool (m : List (String × Nat)) (name : String) : List (String × Nat) :=
  if m.any (fun p => p.1 == name) then
    m.map (fun p => if p.1 == name then (p.1, p.2 + 1) else p)
  else
    m ++ [(name, 1)]

/-- Per-content-block processing of an assistant message
(agent.ts lines 272–374). -/
def processBlock (ext : String → TweetParse) (st : SessionState) :
    ContentBlock → SessionState
  | .text body =>
    -- `if (block.type === 'text' && block.text)`: empty text is falsy.
    if body == "" then st
    else if jsIncludes (jsLower body) "\"tweets\"" then
      match ext body with
      | .noMatch => st
      | .parsed ts =>
        { st with tweets := st.tweets ++ ts
                  logs := st.logs ++
                    [⟨"success", "Extracted " ++ toString ts.length ++ " tweets"⟩] }
      | .parseError _ =>
        { st with logs := st.logs ++ [⟨"warning", "Could not parse tweet JSON"⟩] }
    else st
  | .thinking _ => st
  | .toolUse name _ =>
    let st := { st with tool_calls := bumpTool st.tool_calls name }
    if jsIncludes (jsLower name) "mcp__" || jsIncludes (jsLower name) "rube" then
      { st with logs := st.logs ++ [⟨"info", "Using MCP tool: " ++ name⟩] }
    else st
  | .toolResult toolUseId isError _ =>
    if isError then { st with errors := st.errors ++ [toolUseId] } else st
  | .other _ => st

/-- One iteration of `for await (const message of query(...))`
(agent.ts lines 161–377): `message_count++` happens for every message,
then the message is dispatched on its type. -/
def processMessage (ext : String → TweetParse) (st : SessionState) :
    StreamMessage → SessionState
  | .init sessionId _ _ =>
    { st with message_count := st.message_count + 1
              session_id := sessionId
              logs := st.logs ++ [⟨"info", "Session initialized"⟩] }
  | .result usage =>
    let st := { st with message_count := st.message_count + 1 }
    match usage with
    | none => st
    | some u =>
      { st with cost := applyUsage st.cost u
                logs := st.logs ++ [⟨"info", "Cost update"⟩] }
  | .assistant content =>
    let st := { st with message_count := st.message_count + 1 }
    content.foldl (processBlock ext) st
  | .otherMsg _ => { st with message_count := st.message_count + 1 }

/-- State at entry of the query loop: zeroed `researchData` plus the four
`addLog` calls issued before the loop (agent.ts lines 77–146). -/
def initSession (topic : String) : SessionState :=
  { session_id := none
    message_count := 0
    tweets := []
    tool_calls := []
    errors := []
    cost := CostTracking.init
    logs :=
      [⟨"info", "Starting X Research Agent"⟩,
       ⟨"info", "Research topic: " ++ topic⟩,
       ⟨"info", "Configured agent with MCP support"⟩,
       ⟨"info", "Starting research session"⟩] }

/-- The `catch (queryError)` handler around the message loop
(agent.ts lines 378–390): a stream exception is logged and appended to
`researchData.errors` — and nothing else; the function keeps running. -/
def afterStream (thrown : Option String) (st : SessionState) : SessionState :=
  match thrown with
  | none => st
  | some e =>
    { st with logs := st.logs ++ [⟨"error", "Query execution failed"⟩]
              errors := st.errors ++ [e] }

/-- The whole session: initial logs, the message loop over the stream, the
stream-exception handler (the stream yields `msgs` and then, when
`thrown = some e`, raises `e`), and the final `addLog('success', ...)`
(agent.ts line 442). -/
def xresearchRun (ext : String → TweetParse) (topic : String)
    (msgs : List StreamMessage) (thrown : Option String) : SessionState :=
  let st := afterStream thrown (msgs.foldl (processMessage ext) (initSession topic))
  { st with logs := st.logs ++ [⟨"success", "Research completed"⟩] }

/-- Digits-after-the-point rendering of a non-negative rational, mirroring
JS `number.toFixed(d)` (the binary-floating-point rounding artifacts of the
source are abstracted; the value is used only inside the response text). -/
def qToFixed (d : Nat) (q : ℚ) : String :=
  let scaled : Int := ⌊q * (10 : ℚ) ^ d + 1 / 2⌋
  let n := scaled.toNat
  let whole := n / 10 ^ d
  let frac := n % 10 ^ d
  let fracStr := toString frac
  let pad := String.mk (List.replicate (d - fracStr.length) '0')
  toString whole ++ "." ++ pad ++ fracStr

/-- The result object built by `XResearchAgent.execute` when the loop
finishes (agent.ts lines 439–479).  `metadata.duration` and the formatted
duration inside the response are wall-clock values, passed in as `durStr`. -/
structure AgentResult where
  success : Bool
  response : String
  data_total_tweets : Nat
  data_tool_calls : List (String × Nat)
  data_cost : CostTracking
  data_session_id : Option String
  logs : List AgentLog
  meta_tokensUsed : Int
  meta_costUsd : ℚ
  meta_toolCalls : List (String × Nat)
deriving DecidableEq

/-- The `response` template of agent.ts line 440. -/
def xresearchResponse (topic : String) (tweetCount : Nat) (st : SessionState)
    (durStr : String) : String :=
  "X Research Complete!\n\nTopic: " ++ topic
    ++ "\nTarget: " ++ toString tweetCount ++ " tweets"
    ++ "\nCollected: " ++ toString st.tweets.length ++ " tweets"
    ++ "\n\nSession ID: " ++ st.session_id.getD "null"
    ++ "\nDuration: " ++ durStr ++ "s"
    ++ "\nTotal Cost: $" ++ qToFixed 4 st.cost.total_cost_usd
    ++ "\n\nTool Usage:\n"
    ++ joinLines (st.tool_calls.map
        (fun p => "  - " ++ p.1 ++ ": " ++ toString p.2 ++ " calls"))

/-- Function `XResearchAgent.execute` for a stream that yields `msgs` and then either
completes (`thrown = none`) or raises (`thrown = some e`).  The outer
`try/catch` is never entered on this path — the inner `catch (queryError)`
has already swallowed the stream error — so the function always reaches the
`success: true` result object of line 458. -/
def xresearchExecute (ext : String → TweetParse) (topic : String)
    (tweetCount : Nat) (msgs : List StreamMessage) (thrown : Option String)
    (durStr : String) : AgentResult :=
  let st := xresearchRun ext topic msgs thrown
  { success := true
    response := xresearchResponse topic tweetCount st durStr
    data_total_tweets := st.tweets.length
    data_tool_calls := st.tool_calls
    data_cost := st.cost
    data_session_id := st.session_id
    logs := st.logs
    meta_tokensUsed := st.cost.total_input_tokens + st.cost.total_output_tokens
    meta_costUsd := st.cost.total_cost_usd
    meta_toolCalls := st.tool_calls }

/-! ## NextJSAppGeneratorAgent.execute message loop
(src/agents/nextjs-app-generator/agent.ts lines 143–229)

Only assistant messages are inspected; `responseText += block.text` for
every text block; after *every* stream message the token estimate grows by
100 input / 50 output tokens (lines 173–176); the final cost is computed
from the totals with input/output prices only (lines 183–185). -/

/-- Loop state of the NextJS generator session. -/
structure NState where
  responseText : String
  message_count : Int
  total_input_tokens : Int
  total_output_tokens : Int
deriving DecidableEq

/-- One iteration of the generator's `for await` loop. -/
def nextjsStep (st : NState) (m : StreamMessage) : NState :=
  let st :=
    match m with
    | .assistant content =>
      { st with
        message_count := st.message_count + 1
        responseText := st.responseText ++
          (content.foldl (fun acc b =>
            match b with
            | ContentBlock.text body => acc ++ body
            | _ => acc) "") }
    | _ => st
  { st with total_input_tokens := st.total_input_tokens + 100
            total_output_tokens := st.total_output_tokens + 50 }

/-- Result slice of `NextJSAppGeneratorAgent.execute` relevant here
(lines 218–229). -/
structure NResult where
  success : Bool
  response : String
  meta_tokensUsed : Int
  meta_costUsd : ℚ
deriving DecidableEq

/-- The generator's loop over a completed stream plus result construction. -/
def nextjsExecute (msgs : List StreamMessage) : NResult :=
  let st := msgs.foldl nextjsStep ⟨"", 0, 0, 0⟩
  let inputCost := (st.total_input_tokens : ℚ) / 1000000 * 3.00
  let outputCost := (st.total_output_tokens : ℚ) / 1000000 * 15.00
  { success := true
    response := st.responseText
    meta_tokensUsed := st.total_input_tokens + st.total_output_tokens
    meta_costUsd := inputCost + outputCost }

/-! ## LogBlockParser: the log route (GET /api/agent/logs)

`filterTaskLines` models lines 36–60 of the route (window selection) and
`groupLogLines` models lines 83–250 (block grouping).  The per-block
`timestamp: new Date().toISOString()` is the call-time clock, passed in as
`now`; block `message`s are kept as their line lists (`messageLines`), with
`LogBlock.message` providing the `blockLines.join('\n')` of the source —
the input lines come from `split('\n')` and contain no newline, so the two
representations are interconvertible. -/

/-- A structured log block produced by `groupLogLines`. -/
structure LogBlock where
  id : String
  timestamp : String
  messageLines : List String
  type : String
deriving DecidableEq

/-- The `message` field of the JS block object: `blockLines.join('\n')`. -/
def LogBlock.message (b : LogBlock) : String := joinLines b.messageLines

/-- Source `'='.repeat(40)`. -/
def sep40 : String := String.mk (List.replicate 40 '=')

/-- The top-level execution-start marker the route truncates windows at. -/
def execStartMarker : String := "===== AGENT EXECUTION START ====="

/-- Source `isBlockStart` (route lines 255–266); note `if (!line) return false`. -/
def isBlockStart (line : String) : Bool :=
  if line == "" then false
  else
    jsIncludes line "[MESSAGE #"
    || jsIncludes line "[SESSION INITIALIZED]"
    || jsIncludes line "[TOOLUSEBLOCK]"
    || jsIncludes line "💰 COST TRACKING"
    || jsIncludes line "RESEARCH EXECUTION COMPLETE"
    || jsIncludes line "===== AGENT EXECUTION"

/-- Source `detectLogType` (route lines 271–280), keyword sniffing in order. -/
def detectLogType (content : String) : String :=
  if jsIncludes content "SESSION INITIALIZED" then "session"
  else if jsIncludes content "[MESSAGE #" then "message"
  else if jsIncludes content "[TOOLUSEBLOCK]" || jsIncludes content "Tool:" then "tool"
  else if jsIncludes content "💰 COST TRACKING" then "cost"
  else if jsIncludes content "COMPLETE" || jsIncludes content "SUMMARY" then "completion"
  else if jsIncludes content "ERROR" || jsIncludes content "Error" then "error"
  else if jsIncludes content "X (TWITTER) RESEARCH AGENT"
          || jsIncludes content "Research Topic:" then "session"
  else "info"

/-- One grouping branch of `groupLogLines`: when to keep collecting lines
into the open block (checked before pushing, against the running
`blockLines.length`), when to break right after a push, and how the block's
`type` is computed from its lines. -/
structure GroupBranch where
  contWhile : String → Nat → Bool
  stopAfter : String → Nat → Bool
  mkType : List String → String

/-- The branch dispatch of `groupLogLines`, in source order (route lines
91–237).  Returns `none` for the default single-line case. -/
def branchOf (line : String) : Option GroupBranch :=
  -- banner: collect until another `====…` separator or block start, cap 20
  if jsIncludes line sep40 then
    some ⟨fun l _ => !jsIncludes l sep40 && !isBlockStart l,
          fun _ n => decide (n > 20),
          fun ls => detectLogType (joinLines ls)⟩
  -- session initialization block, `blockLines.length < 10`
  else if jsIncludes line "[SESSION INITIALIZED]" then
    some ⟨fun l n => !isBlockStart l && decide (n < 10),
          fun _ _ => false,
          fun _ => "session"⟩
  -- message block, `blockLines.length < 20`
  else if jsIncludes line "[MESSAGE #" then
    some ⟨fun l n => !isBlockStart l && decide (n < 20),
          fun _ _ => false,
          fun _ => "message"⟩
  -- tool-use block, `blockLines.length < 15`
  else if jsIncludes line "[TOOLUSEBLOCK]"
          || (jsIncludes line "Tool:" && jsIncludes line "[XResearchAgent]") then
    some ⟨fun l n => !isBlockStart l && decide (n < 15),
          fun _ _ => false,
          fun _ => "tool"⟩
  -- cost-tracking block, break once length exceeds 25
  else if jsIncludes line "💰 COST TRACKING" then
    some ⟨fun l _ => !isBlockStart l && !jsIncludes l sep40,
          fun _ n => decide (n > 25),
          fun _ => "cost"⟩
  -- completion block, break once length exceeds 30
  else if jsIncludes line "RESEARCH EXECUTION COMPLETE"
          || jsIncludes line "COST SUMMARY" then
    some ⟨fun l _ => !isBlockStart l && !jsIncludes l "===== AGENT EXECUTION",
          fun _ n => decide (n > 30),
          fun _ => "completion"⟩
  -- multi-line info block, break after a closing brace line or length > 10
  else if jsIncludes line "Agent config:" || jsIncludes line "[XResearchAgent]" then
    some ⟨fun l _ => !isBlockStart l,
          fun l n => jsTrim l == "\x7d" || decide (n > 10),
          fun _ => "info"⟩
  else none

/-- The inner collection loop shared by all branches: `n` is the number of
lines already in `blockLines`; a line is consumed while `contWhile` holds,
and collection breaks right after consuming a line for which `stopAfter`
holds.  Returns the collected lines and the remaining input. -/
def collectBlock (br : GroupBranch) : Nat → List String → List String × List String
  | _, [] => ([], [])
  | n, l :: rest =>
    if br.contWhile l n then
      if br.stopAfter l (n + 1) then ([l], rest)
      else
        let cr := collectBlock br (n + 1) rest
        (l :: cr.1, cr.2)
    else ([], l :: rest)

/-- The `groupLogLines` cursor loop with explicit fuel (each iteration consumes
at least one line, so `fuel = lines.length` suffices); `k` is
`logs.length`, used for the `log-${logs.length}` ids. -/
def groupGo (now : String) : Nat → Nat → List String → List LogBlock
  | 0, _, _ => []
  | _ + 1, _, [] => []
  | fuel + 1, k, l :: rest =>
    match branchOf l with
    | some br =>
      let cr := collectBlock br 1 rest
      ⟨"log-" ++ toString k, now, l :: cr.1, br.mkType (l :: cr.1)⟩
        :: groupGo now fuel (k + 1) cr.2
    | none =>
      ⟨"log-" ++ toString k, now, [l], detectLogType l⟩
        :: groupGo now fuel (k + 1) rest

/-- Source `groupLogLines(lines)` at clock value `now`. -/
def groupLogLines (now : String) (lines : List String) : List LogBlock :=
  groupGo now lines.length 0 lines

/-- JS `array.findIndex(pred)` (index of first match). -/
def firstIdxAux (p : String → Bool) : Nat → List String → Option Nat
  | _, [] => none
  | i, l :: rest => if p l then some i else firstIdxAux p (i + 1) rest

/-- Source `lines.findIndex(line => line.includes(Task ID: taskId))`
(route line 39). -/
def taskMarkerIdx (lines : List String) (taskId : String) : Option Nat :=
  firstIdxAux (fun l => jsIncludes l ("Task ID: " ++ taskId)) 0 lines

/-- Source `filteredLines.findIndex((line, index) => index > 5 &&
line.includes('===== AGENT EXECUTION START ====='))` (route lines 47–49). -/
def findMarkerIdxFrom : Nat → List String → Option Nat
  | _, [] => none
  | j, l :: rest =>
    if decide (j > 5) && jsIncludes l execStartMarker then some j
    else findMarkerIdxFrom (j + 1) rest

/-- The `nextTaskIndex` computation over an already-filtered window. -/
def nextTaskIdx (filtered : List String) : Option Nat :=
  findMarkerIdxFrom 0 filtered

/-- The pre-truncation window: `lines.slice(Math.max(0, taskStartIndex-1))`
(route lines 42–44); `[]` when the task marker is absent (lines 55–59). -/
def taskWindow (lines : List String) (taskId : String) : List String :=
  match taskMarkerIdx lines taskId with
  | none => []
  | some i => lines.drop (i - 1)

/-- Source `if (nextTaskIndex !== -1) filteredLines.slice(0, nextTaskIndex)`
(route lines 52–54). -/
def windowTrunc (filtered : List String) : List String :=
  match nextTaskIdx filtered with
  | none => filtered
  | some j => filtered.take j

/-- The whole window selection of the GET handler for a given task id. -/
def filterTaskLines (lines : List String) (taskId : String) : List String :=
  windowTrunc (taskWindow lines taskId)

/-- The full parse performed by the route: window selection followed by
block grouping, at clock value `now`. -/
def parseTaskLogs (now : String) (lines : List String) (taskId : String) :
    List LogBlock :=
  groupLogLines now (filterTaskLines lines taskId)

/-- A block with its clock-assigned timestamp erased. -/
def blockCore (b : LogBlock) : String × List String × String :=
  (b.id, b.messageLines, b.type)

/-- Timestamp-erased view of a parse result. -/
def stripTs (bs : List LogBlock) : List (String × List String × String) :=
  bs.map blockCore

/-- Does some parsed block carry the given raw line? -/
def blocksContainLine (bs : List LogBlock) (l : String) : Bool :=
  bs.any (fun b => b.messageLines.contains l)

/-! ## LogDeliveryGateway: the SSE route (GET /api/agent/stream)

The route (src route file, lines 30–67): on open it enqueues every log
already persisted for the task; `setInterval(…, 1000)` then re-reads the
task each second.  A tick whose snapshot is missing closes; a tick whose
snapshot has terminal status sends `updatedTask.logs.slice(task.logs.length)`
and closes; any other tick sends nothing.  The abort listener clears the
interval and closes.  Log entries are opaque payloads here (`String`). -/

/-- A persisted task as read back by `findTaskById`. -/
structure TaskSnap where
  logs : List String
  agentStatus : String
deriving DecidableEq

/-- What one poll callback (or the abort handler) does. -/
structure TickOut where
  emitted : List String
  timerCleared : Bool
  closed : Bool
deriving DecidableEq

/-- The initial replay: every `LogEntry` already persisted is enqueued
(route lines 33–36). -/
def sseOpen (task : TaskSnap) : List String := task.logs

/-- The `setInterval` period in milliseconds (route line 60). -/
def ssePollIntervalMs : Nat := 1000

/-- One poll callback: `initCount` is `task.logs.length` captured when the
stream opened; `snap` is the fresh `findTaskById` result (route lines
39–60). -/
def sseTick (initCount : Nat) (snap : Option TaskSnap) : TickOut :=
  match snap with
  | none => ⟨[], true, true⟩
  | some t =>
    if t.agentStatus == "success" || t.agentStatus == "error" then
      ⟨t.logs.drop initCount, true, true⟩
    else ⟨[], false, false⟩

/-- The abort listener: clear the interval and close (route lines 63–66). -/
def sseOnAbort : TickOut := ⟨[], true, true⟩

/-- Everything the channel emits over a sequence of poll snapshots; once a
tick clears the timer the callback never fires again. -/
def sseRun (initCount : Nat) : Bool → List (Option TaskSnap) → List String
  | _, [] => []
  | true, _ :: _ => []
  | false, snap :: rest =>
    let r := sseTick initCount snap
    r.emitted ++ sseRun initCount r.closed rest

/-! ## AgentRegistry (src/agents/registry.ts)

The filesystem and dynamic-import surface is modelled as a record of maps:
directory entries, the parsed `config.json` per agent folder (present and
valid, or absent/unreadable — either way `loadAgent` throws and the
per-agent `catch` skips it), and the exports of the compiled `agent.js`. -/

/-- One `fs.readdirSync(..., { withFileTypes: true })` entry. -/
structure DirEnt where
  name : String
  isDir : Bool
deriving DecidableEq

/-- The agent descriptor slice the loader consumes. -/
structure AgentConfigM where
  name : String
deriving DecidableEq

/-- Exports of a compiled agent module: `default` and the `Agent` named
export, each a class, identified here by name. -/
structure ModuleExports where
  defaultExport : Option String
  agentExport : Option String
deriving DecidableEq

/-- The agents directory as the registry observes it. -/
structure AgentsFS where
  /-- The `readdirSync` result; `none` models a throw (caught at line 30). -/
  entries : Option (List DirEnt)
  /-- parsed `config.json` per folder, `none` when missing or unparsable. -/
  config : String → Option AgentConfigM
  /-- compiled `agent.js` per folder, `none` when missing or import fails. -/
  moduleFile : String → Option ModuleExports

/-- Source `loadAgent` (registry.ts lines 36–71): each guard throws, modelled as
`Except.error` with the source's message; on success the agent class is
instantiated with its config and registered. -/
def loadAgent (fs : AgentsFS) (agentId : String) :
    Except String (AgentConfigM × String) :=
  match fs.config agentId with
  | none => .error ("Agent config not found: " ++ agentId ++ "/config.json")
  | some config =>
    match fs.moduleFile agentId with
    | none => .error ("Agent implementation not found: " ++ agentId ++ "/agent.js")
    | some m =>
      -- `const AgentClass = agentModule.default || agentModule.Agent`
      match m.defaultExport.orElse (fun _ => m.agentExport) with
      | none => .error ("No default export found in " ++ agentId ++ "/agent.js")
      | some cls => .ok (config, cls)

/-- The directories `loadAllAgents` iterates: directory entries not starting
with a dot (registry.ts line 17). -/
def agentDirs (fs : AgentsFS) : List DirEnt :=
  match fs.entries with
  | none => []
  | some es => es.filter (fun e => e.isDir && !jsBegins e.name ".")

/-- Source `loadAllAgents` (registry.ts lines 12–33): each directory is loaded
inside its own `try/catch`, so one failure only skips that agent; the outer
`catch` swallows a `readdirSync` failure.  Returns the registered agents
`(id, config, class)` in registration order.  Total — it never throws. -/
def loadAllAgents (fs : AgentsFS) : List (String × AgentConfigM × String) :=
  (agentDirs fs).foldl
    (fun acc d =>
      match loadAgent fs d.name with
      | .ok r => acc ++ [(d.name, r)]
      | .error _ => acc)
    []

/-! ## Spec-side summations (for the ExecutionSession accounting claims) -/

/-- The usage carried by a stream message, when it is a `result` with
usage. -/
def usageOf : StreamMessage → Option Usage
  | .result (some u) => some u
  | _ => none

/-- Sum of `input_tokens` over the result messages of a stream. -/
def sumInput (msgs : List StreamMessage) : Int :=
  (msgs.filterMap usageOf).foldl (fun a u => a + u.input_tokens.getD 0) 0

/-- Sum of `output_tokens` over the result messages of a stream. -/
def sumOutput (msgs : List StreamMessage) : Int :=
  (msgs.filterMap usageOf).foldl (fun a u => a + u.output_tokens.getD 0) 0

/-- Sum of per-step costs over the result messages of a stream — this is
the Σ-of-`stepCost` the spec's CostModel describes, cache classes
included. -/
def sumCost (msgs : List StreamMessage) : ℚ :=
  (msgs.filterMap usageOf).foldl
    (fun a u => a + stepCost (u.input_tokens.getD 0) (u.output_tokens.getD 0)
      (u.cache_creation_input_tokens.getD 0) (u.cache_read_input_tokens.getD 0)) 0

/-- All four token counts of a usage are non-negative. -/
def usageNonneg (u : Usage) : Prop :=
  0 ≤ u.input_tokens.getD 0 ∧ 0 ≤ u.output_tokens.getD 0
    ∧ 0 ≤ u.cache_creation_input_tokens.getD 0
    ∧ 0 ≤ u.cache_read_input_tokens.getD 0

instance (u : Usage) : Decidable (usageNonneg u) := by
  unfold usageNonneg; infer_instance

/-- The cost accumulator after the session has processed the first `k`
stream messages, starting from session state `st0`. -/
def costAfter (ext : String → TweetParse) (st0 : SessionState)
    (msgs : List StreamMessage) (k : Nat) : CostTracking :=
  ((msgs.take k).foldl (processMessage ext) st0).cost

/-! ## Concrete test vectors -/

/-- A tweet extractor that never matches (any fixed extractor works for the
concrete streams below, whose text blocks never contain `"tweets"`). -/
def extNoMatch : String → TweetParse := fun _ => TweetParse.noMatch

/-- The spec's scenario stream:
`[init(session="s1", model="m", tools=5), assistantText("hello"),
result(usage={input:100, output:50})]`. -/
def c7stream : List StreamMessage :=
  [StreamMessage.init (some "s1") "m" ["t1", "t2", "t3", "t4", "t5"],
   StreamMessage.assistant [ContentBlock.text "hello"],
   StreamMessage.result (some { input_tokens := some 100, output_tokens := some 50 })]

/-- A captured-output buffer in which task `t1` executed twice: the
`Task ID: t1` marker occurs at lines 1 and 4. -/
def c4buffer : List String :=
  [execStartMarker, "Task ID: t1", "first-run-line",
   execStartMarker, "Task ID: t1", "second-run-line"]

/-- Sequential tasks A then B where B's start marker falls within the first
six lines of A's window (A produced a single output line). -/
def c6buffer : List String :=
  [execStartMarker, "Task ID: A", "a-line",
   execStartMarker, "Task ID: B", "b-secret-line"]

/-- Sequential tasks A then B where B's start marker falls beyond the first
six lines of A's window. -/
def c6okBuffer : List String :=
  [execStartMarker, "Task ID: A", "a1", "a2", "a3", "a4",
   execStartMarker, "Task ID: B", "b1"]

/-- A buffer whose task window for `t1` is non-empty. -/
def c5buffer : List String :=
  [execStartMarker, "Task ID: t1", "some line"]

/-- An agents directory with one loadable agent, one agent folder missing
its `config.json`, a dot-directory and a stray file. -/
def exampleFS : AgentsFS :=
  { entries := some [⟨"good-agent", true⟩, ⟨"broken-agent", true⟩,
      ⟨".git", true⟩, ⟨"README.md", false⟩]
    config := fun d => if d == "good-agent" then some ⟨"Good Agent"⟩ else none
    moduleFile := fun d =>
      if d == "good-agent" then some ⟨some "GoodAgentClass", none⟩ else none }

/-! ## Helper lemmas: cost accounting of the session loop -/

theorem processBlock_cost (ext : String → TweetParse) (st : SessionState)
    (b : ContentBlock) : (processBlock ext st b).cost = st.cost := by
  cases b <;> simp only [processBlock] <;> (repeat' split) <;> rfl

theorem foldl_processBlock_cost (ext : String → TweetParse) :
    ∀ (bs : List ContentBlock) (st : SessionState),
      (bs.foldl (processBlock ext) st).cost = st.cost := by
  intro bs
  induction bs with
  | nil => intro st; rfl
  | cons b bs ih =>
    intro st
    rw [List.foldl_cons, ih, processBlock_cost]

theorem processMessage_cost (ext : String → TweetParse) (st : SessionState)
    (m : StreamMessage) :
    (processMessage ext st m).cost =
      match usageOf m with
      | none => st.cost
      | some u => applyUsage st.cost u := by
  cases m with
  | init sessionId model tools => rfl
  | assistant content =>
    simp only [processMessage, usageOf]
    exact foldl_processBlock_cost ext content _
  | result usage => cases usage <;> rfl
  | otherMsg kind => rfl

theorem foldl_add_eq_sum {α M : Type} [AddCommMonoid M] (f : α → M) :
    ∀ (l : List α) (a : M),
      l.foldl (fun acc u => acc + f u) a = a + (l.map f).sum := by
  intro l
  induction l with
  | nil => intro a; simp
  | cons x xs ih => intro a; simp [ih, add_assoc]

theorem sumInput_eq (msgs : List StreamMessage) :
    sumInput msgs
      = ((msgs.filterMap usageOf).map (fun u => u.input_tokens.getD 0)).sum := by
  simpa [sumInput] using
    foldl_add_eq_sum (fun u : Usage => u.input_tokens.getD 0)
      (msgs.filterMap usageOf) 0

theorem sumOutput_eq (msgs : List StreamMessage) :
    sumOutput msgs
      = ((msgs.filterMap usageOf).map (fun u => u.output_tokens.getD 0)).sum := by
  simpa [sumOutput] using
    foldl_add_eq_sum (fun u : Usage => u.output_tokens.getD 0)
      (msgs.filterMap usageOf) 0

theorem sumCost_eq (msgs : List StreamMessage) :
    sumCost msgs
      = ((msgs.filterMap usageOf).map (fun u =>
          stepCost (u.input_tokens.getD 0) (u.output_tokens.getD 0)
            (u.cache_creation_input_tokens.getD 0)
            (u.cache_read_input_tokens.getD 0))).sum := by
  simpa [sumCost] using
    foldl_add_eq_sum (fun u : Usage =>
        stepCost (u.input_tokens.getD 0) (u.output_tokens.getD 0)
          (u.cache_creation_input_tokens.getD 0) (u.cache_read_input_tokens.getD 0))
      (msgs.filterMap usageOf) 0

theorem session_cost (ext : String → TweetParse) :
    ∀ (msgs : List StreamMessage) (st : SessionState),
      ((msgs.foldl (processMessage ext) st).cost).total_input_tokens
          = st.cost.total_input_tokens + sumInput msgs
        ∧ ((msgs.foldl (processMessage ext) st).cost).total_output_tokens
          = st.cost.total_output_tokens + sumOutput msgs
        ∧ ((msgs.foldl (processMessage ext) st).cost).total_cost_usd
          = st.cost.total_cost_usd + sumCost msgs := by
  intro msgs
  induction msgs with
  | nil =>
    intro st
    simp [sumInput, sumOutput, sumCost]
  | cons m ms ih =>
    intro st
    obtain ⟨h1, h2, h3⟩ := ih (processMessage ext st m)
    have hc := processMessage_cost ext st m
    rw [List.foldl_cons]
    cases hm : usageOf m with
    | none =>
      rw [hm] at hc
      refine ⟨?_, ?_, ?_⟩ <;>
        simp [h1, h2, h3, hc, sumInput_eq, sumOutput_eq, sumCost_eq,
          List.filterMap_cons, hm]
    | some u =>
      rw [hm] at hc
      refine ⟨?_, ?_, ?_⟩ <;>
        simp [h1, h2, h3, hc, applyUsage, sumInput_eq, sumOutput_eq, sumCost_eq,
          List.filterMap_cons, hm, add_assoc]

/-- C2 (confirmed): processing a result message with usage adds exactly
`stepCost` — the sum over token classes of `tokens/1e6 × price` — to the
running USD total, and at token counts
`{input: 1_000_000, output: 1_000_000, cacheCreation: 0, cacheRead: 0}` the
step cost is exactly 18 USD (3.00 for input plus 15.00 for output). -/
theorem step_cost_formula (ext : String → TweetParse) (st : SessionState)
    (u : Usage) :
    (processMessage ext st (StreamMessage.result (some u))).cost.total_cost_usd
        = st.cost.total_cost_usd
          + stepCost (u.input_tokens.getD 0) (u.output_tokens.getD 0)
              (u.cache_creation_input_tokens.getD 0)
              (u.cache_read_input_tokens.getD 0)
      ∧ stepCost 1000000 1000000 0 0 = 18 := by
  constructor
  · rfl
  · norm_num [stepCost]

/-- C10 (confirmed): when the message loop completes, `metadata.tokensUsed`
is the sum of accumulated input and output tokens only — cache-creation and
cache-read tokens are excluded — while `metadata.costUsd` is the sum of the
per-step costs, which do price all four token classes. -/
theorem tokens_used_excludes_cache (ext : String → TweetParse) (topic : String)
    (tweetCount : Nat) (msgs : List StreamMessage) (thrown : Option String)
    (durStr : String) :
    (xresearchExecute ext topic tweetCount msgs thrown durStr).meta_tokensUsed
        = sumInput msgs + sumOutput msgs
      ∧ (xresearchExecute ext topic tweetCount msgs thrown durStr).meta_costUsd
        = sumCost msgs := by
  obtain ⟨h1, h2, h3⟩ := session_cost ext msgs (initSession topic)
  have hrun : (xresearchRun ext topic msgs thrown).cost
      = ((msgs.foldl (processMessage ext) (initSession topic))).cost := by
    unfold xresearchRun afterStream
    cases thrown <;> rfl
  constructor
  · show (xresearchRun ext topic msgs thrown).cost.total_input_tokens
        + (xresearchRun ext topic msgs thrown).cost.total_output_tokens = _
    rw [hrun, h1, h2]
    show 0 + sumInput msgs + (0 + sumOutput msgs) = _
    ring
  · show (xresearchRun ext topic msgs thrown).cost.total_cost_usd = _
    rw [hrun, h3]
    show 0 + sumCost msgs = _
    ring

/-! ## Helper lemmas: monotonicity of the accumulator -/

theorem stepCost_nonneg {i o cc cr : Int} (hi : 0 ≤ i) (ho : 0 ≤ o)
    (hcc : 0 ≤ cc) (hcr : 0 ≤ cr) : 0 ≤ stepCost i o cc cr := by
  unfold stepCost
  have hi' : (0 : ℚ) ≤ (i : ℚ) := by exact_mod_cast hi
  have ho' : (0 : ℚ) ≤ (o : ℚ) := by exact_mod_cast ho
  have hcc' : (0 : ℚ) ≤ (cc : ℚ) := by exact_mod_cast hcc
  have hcr' : (0 : ℚ) ≤ (cr : ℚ) := by exact_mod_cast hcr
  refine add_nonneg (add_nonneg (add_nonneg ?_ ?_) ?_) ?_ <;>
    refine mul_nonneg (div_nonneg (by assumption) (by norm_num)) (by norm_num)

theorem processMessage_cost_mono (ext : String → TweetParse)
    (st : SessionState) (m : StreamMessage)
    (h : ∀ u, usageOf m = some u → usageNonneg u) :
    st.cost.total_input_tokens
        ≤ (processMessage ext st m).cost.total_input_tokens
      ∧ st.cost.total_output_tokens
        ≤ (processMessage ext st m).cost.total_output_tokens
      ∧ st.cost.total_cache_creation_tokens
        ≤ (processMessage ext st m).cost.total_cache_creation_tokens
      ∧ st.cost.total_cache_read_tokens
        ≤ (processMessage ext st m).cost.total_cache_read_tokens
      ∧ st.cost.total_cost_usd
        ≤ (processMessage ext st m).cost.total_cost_usd := by
  have hc := processMessage_cost ext st m
  cases hm : usageOf m with
  | none =>
    rw [hm] at hc
    rw [hc]
    exact ⟨le_rfl, le_rfl, le_rfl, le_rfl, le_rfl⟩
  | some u =>
    obtain ⟨h1, h2, h3, h4⟩ := h u hm
    rw [hm] at hc
    rw [hc]
    unfold applyUsage
    refine ⟨le_add_of_nonneg_right h1, le_add_of_nonneg_right h2,
      le_add_of_nonneg_right h3, le_add_of_nonneg_right h4,
      le_add_of_nonneg_right (stepCost_nonneg h1 h2 h3 h4)⟩

/-- C3 (confirmed): over any processed stream whose result usages carry
non-negative token counts, all five fields of the cost accumulator — the
four token totals and `total_cost_usd` — are non-decreasing from each
processed message to the next. -/
theorem cost_accumulator_monotone (ext : String → TweetParse)
    (st0 : SessionState) (msgs : List StreamMessage)
    (h : ∀ u ∈ msgs.filterMap usageOf, usageNonneg u) (k : Nat) :
    (costAfter ext st0 msgs k).total_input_tokens
        ≤ (costAfter ext st0 msgs (k + 1)).total_input_tokens
      ∧ (costAfter ext st0 msgs k).total_output_tokens
        ≤ (costAfter ext st0 msgs (k + 1)).total_output_tokens
      ∧ (costAfter ext st0 msgs k).total_cache_creation_tokens
        ≤ (costAfter ext st0 msgs (k + 1)).total_cache_creation_tokens
      ∧ (costAfter ext st0 msgs k).total_cache_read_tokens
        ≤ (costAfter ext st0 msgs (k + 1)).total_cache_read_tokens
      ∧ (costAfter ext st0 msgs k).total_cost_usd
        ≤ (costAfter ext st0 msgs (k + 1)).total_cost_usd := by
  unfold costAfter
  rw [List.take_succ, List.foldl_append]
  cases hk : msgs[k]? with
  | none =>
    simp only [hk, Option.toList_none, List.foldl_nil]
    exact ⟨le_rfl, le_rfl, le_rfl, le_rfl, le_rfl⟩
  | some m =>
    simp only [hk, Option.toList_some, List.foldl_cons, List.foldl_nil]
    apply processMessage_cost_mono
    intro u hu
    apply h
    rw [List.mem_filterMap]
    rw [List.getElem?_eq_some] at hk
    obtain ⟨hlt, rfl⟩ := hk
    exact ⟨msgs[k], List.getElem_mem hlt, hu⟩

/-- Witness for C3 at a concrete stream and step. -/
theorem cost_accumulator_monotone_witness :
    (∀ u ∈ ([StreamMessage.result
        (some { input_tokens := some 100, output_tokens := some 50 })] :
          List StreamMessage).filterMap usageOf, usageNonneg u)
    ∧ ((costAfter extNoMatch (initSession "t")
          [StreamMessage.result
            (some { input_tokens := some 100, output_tokens := some 50 })]
          0).total_input_tokens
        ≤ (costAfter extNoMatch (initSession "t")
          [StreamMessage.result
            (some { input_tokens := some 100, output_tokens := some 50 })]
          (0 + 1)).total_input_tokens
      ∧ (costAfter extNoMatch (initSession "t")
          [StreamMessage.result
            (some { input_tokens := some 100, output_tokens := some 50 })]
          0).total_output_tokens
        ≤ (costAfter extNoMatch (initSession "t")
          [StreamMessage.result
            (some { input_tokens := some 100, output_tokens := some 50 })]
          (0 + 1)).total_output_tokens
      ∧ (costAfter extNoMatch (initSession "t")
          [StreamMessage.result
            (some { input_tokens := some 100, output_tokens := some 50 })]
          0).total_cache_creation_tokens
        ≤ (costAfter extNoMatch (initSession "t")
          [StreamMessage.result
            (some { input_tokens := some 100, output_tokens := some 50 })]
          (0 + 1)).total_cache_creation_tokens
      ∧ (costAfter extNoMatch (initSession "t")
          [StreamMessage.result
            (some { input_tokens := some 100, output_tokens := some 50 })]
          0).total_cache_read_tokens
        ≤ (costAfter extNoMatch (initSession "t")
          [StreamMessage.result
            (some { input_tokens := some 100, output_tokens := some 50 })]
          (0 + 1)).total_cache_read_tokens
      ∧ (costAfter extNoMatch (initSession "t")
          [StreamMessage.result
            (some { input_tokens := some 100, output_tokens := some 50 })]
          0).total_cost_usd
        ≤ (costAfter extNoMatch (initSession "t")
          [StreamMessage.result
            (some { input_tokens := some 100, output_tokens := some 50 })]
          (0 + 1)).total_cost_usd) :=
  ⟨by decide,
   cost_accumulator_monotone extNoMatch (initSession "t")
     [StreamMessage.result
       (some { input_tokens := some 100, output_tokens := some 50 })]
     (by decide) 0⟩

/-- C1 counterexample: feed `XResearchAgent.execute` a stream that throws
immediately — the exception is caught and recorded, but the returned
result's `success` flag is `true`, not `false` as claimed: the `catch
(queryError)` block only records the error, and control falls through to
the `success: true` result object of agent.ts line 458. -/
theorem stream_error_result_is_success :
    (xresearchExecute extNoMatch "t" 100 [] (some "boom") "0.00").success
      = true := by
  rfl

/-- C1 amended (corrected): for every stream that throws mid-iteration,
`XResearchAgent.execute` still returns a well-formed result — the exception
is never propagated — and the internal accumulated error list is non-empty,
with an error-level `Query execution failed` log entry in the returned
logs; but the result's `success` flag is `true` (the swallowed stream error
does not flip it; only an exception outside the query loop produces a
`success: false` result). -/
theorem stream_error_swallowed (ext : String → TweetParse) (topic : String)
    (tweetCount : Nat) (msgs : List StreamMessage) (e : String)
    (durStr : String) :
    (xresearchExecute ext topic tweetCount msgs (some e) durStr).success = true
      ∧ (xresearchRun ext topic msgs (some e)).errors ≠ []
      ∧ (AgentLog.mk "error" "Query execution failed")
          ∈ (xresearchExecute ext topic tweetCount msgs (some e) durStr).logs := by
  refine ⟨rfl, ?_, ?_⟩
  · have he : e ∈ (xresearchRun ext topic msgs (some e)).errors := by
      simp [xresearchRun, afterStream]
    exact List.ne_nil_of_mem he
  · simp [xresearchExecute, xresearchRun, afterStream]

/-- C7 counterexample: on the scenario stream, `XResearchAgent.execute`
does not return the concatenation of the text blocks — its `response` is
the fixed completion summary, not `"hello"`. -/
theorem scenario_response_not_concat :
    (xresearchExecute extNoMatch "t" 100 c7stream none "0.00").response
      ≠ "hello" := by
  decide

/-- C7 amended (corrected): on the scenario stream
`[init(s1, m, 5 tools), assistantText("hello"), result(usage 100/50)]` the
session result has `metadata.tokensUsed = 150` and
`metadata.costUsd = 0.00105`, and its log list contains exactly one
session-init entry followed by exactly one cost entry — but no per-message
entry for the text block (only four fixed info entries around them), and
the `response` is the completion summary beginning `X Research Complete!`
rather than the concatenated text.  The concatenation behaviour belongs to
`NextJSAppGeneratorAgent`, which on the same stream yields
`response = "hello"` but `metadata.tokensUsed = 450` (a flat 100/50
estimate per message), not 150. -/
theorem scenario_execution_facts :
    (xresearchExecute extNoMatch "t" 100 c7stream none "0.00").meta_tokensUsed
        = 150
      ∧ (xresearchExecute extNoMatch "t" 100 c7stream none "0.00").meta_costUsd
        = 0.00105
      ∧ (xresearchExecute extNoMatch "t" 100 c7stream none "0.00").logs
        = [⟨"info", "Starting X Research Agent"⟩,
           ⟨"info", "Research topic: t"⟩,
           ⟨"info", "Configured agent with MCP support"⟩,
           ⟨"info", "Starting research session"⟩,
           ⟨"info", "Session initialized"⟩,
           ⟨"info", "Cost update"⟩,
           ⟨"success", "Research completed"⟩]
      ∧ jsBegins (xresearchExecute extNoMatch "t" 100 c7stream none "0.00").response
          "X Research Complete!" = true
      ∧ (nextjsExecute c7stream).response = "hello"
      ∧ (nextjsExecute c7stream).meta_tokensUsed = 450 := by
  refine ⟨by decide, ?_, by decide, by decide, by decide, by decide⟩
  show (xresearchRun extNoMatch "t" c7stream none).cost.total_cost_usd = 0.00105
  obtain ⟨-, -, h3⟩ := session_cost extNoMatch c7stream (initSession "t")
  have hrun : (xresearchRun extNoMatch "t" c7stream none).cost
      = (c7stream.foldl (processMessage extNoMatch) (initSession "t")).cost := rfl
  rw [hrun, h3]
  norm_num [initSession, CostTracking.init, sumCost, c7stream, usageOf, stepCost,
    List.filterMap_cons, List.filterMap_nil, List.foldl_cons, List.foldl_nil,
    Option.getD]

/-! ## Helper lemma: the registry fold -/

theorem loadAll_foldl_eq (fs : AgentsFS) :
    ∀ (ds : List DirEnt) (acc : List (String × AgentConfigM × String)),
      ds.foldl
        (fun acc d =>
          match loadAgent fs d.name with
          | .ok r => acc ++ [(d.name, r)]
          | .error _ => acc)
        acc
      = acc ++ ds.filterMap
          (fun d => (loadAgent fs d.name).toOption.map (fun r => (d.name, r))) := by
  intro ds
  induction ds with
  | nil => intro acc; simp
  | cons d ds ih =>
    intro acc
    rw [List.foldl_cons, List.filterMap_cons]
    cases hd : loadAgent fs d.name with
    | ok r => simp [hd, ih, Except.toOption]
    | error err => simp [hd, ih, Except.toOption]

/-- C9 (confirmed): `loadAllAgents` is a total function (it never throws:
the per-agent `try/catch` turns each `loadAgent` failure into a skip, and
the outer `catch` swallows a directory-read failure); the registered agents
are exactly the directories whose load succeeds, in order — one agent's
failure never aborts the others.  In particular the example directory with
one valid agent and one agent missing `config.json` registers exactly the
valid one. -/
theorem registry_failure_isolation (fs : AgentsFS) :
    loadAllAgents fs
        = (agentDirs fs).filterMap
            (fun d => (loadAgent fs d.name).toOption.map (fun r => (d.name, r)))
      ∧ loadAllAgents exampleFS
        = [("good-agent", ⟨"Good Agent"⟩, "GoodAgentClass")] := by
  constructor
  · unfold loadAllAgents
    rw [loadAll_foldl_eq fs (agentDirs fs) []]
    simp
  · decide

/-- C8 counterexample: a poll that observes the task still running — even
with entries newly appended beyond the initially replayed ones — emits
nothing at all, not the claimed delta of newly appended entries. -/
theorem sse_running_poll_emits_nothing :
    (sseTick 1 (some ⟨["a", "b"], "running"⟩)).emitted
      ≠ (["a", "b"] : List String).drop 1 := by
  decide

/-- C8 amended (corrected): the SSE stream first replays every persisted
entry; its 1-second poll callback emits nothing while the task is running,
and the first poll that observes a terminal status (`success` or `error`)
emits every entry appended since the stream opened, clears the poll timer
and closes — after which nothing more is emitted regardless of further
snapshots; a deleted task closes likewise, and the client-disconnect
handler clears the timer and closes. -/
theorem sse_protocol :
    (∀ t : TaskSnap, sseOpen t = t.logs)
      ∧ (∀ (n : Nat) (t : TaskSnap),
          t.agentStatus = "success" ∨ t.agentStatus = "error" →
          sseTick n (some t) = ⟨t.logs.drop n, true, true⟩)
      ∧ (∀ (n : Nat) (t : TaskSnap),
          t.agentStatus ≠ "success" → t.agentStatus ≠ "error" →
          sseTick n (some t) = ⟨[], false, false⟩)
      ∧ (∀ n : Nat, sseTick n none = ⟨[], true, true⟩)
      ∧ sseOnAbort = ⟨[], true, true⟩
      ∧ (∀ (n : Nat) (t : TaskSnap) (rest : List (Option TaskSnap)),
          t.agentStatus = "success" ∨ t.agentStatus = "error" →
          sseRun n false (some t :: rest) = t.logs.drop n) := by
  refine ⟨fun t => rfl, ?_, ?_, fun n => rfl, rfl, ?_⟩
  · intro n t h
    rcases h with h | h <;> simp [sseTick, h]
  · intro n t h1 h2
    simp [sseTick, h1, h2]
  · intro n t rest h
    have hclosed : ∀ (m : Nat) (snaps : List (Option TaskSnap)),
        sseRun m true snaps = [] := by
      intro m snaps; cases snaps <;> rfl
    rcases h with h | h <;> simp [sseRun, sseTick, h, hclosed]

/-- Witness for C8 at a concrete terminal snapshot. -/
theorem sse_protocol_witness :
    ((("success" : String) = "success" ∨ ("success" : String) = "error")
      ∧ sseTick 1 (some ⟨["a", "b", "c"], "success"⟩)
        = ⟨(["a", "b", "c"] : List String).drop 1, true, true⟩)
      ∧ sseRun 1 false
          [some ⟨["a", "b", "c"], "success"⟩, some ⟨["a", "b", "c", "d"], "success"⟩]
        = (["a", "b", "c"] : List String).drop 1 :=
  ⟨⟨Or.inl rfl, sse_protocol.2.1 1 ⟨["a", "b", "c"], "success"⟩ (Or.inl rfl)⟩,
   sse_protocol.2.2.2.2.2 1 ⟨["a", "b", "c"], "success"⟩
     [some ⟨["a", "b", "c", "d"], "success"⟩] (Or.inl rfl)⟩

/-! ## Helper lemmas: window selection and block grouping -/

theorem firstIdxAux_pred_false_append (p : String → Bool) :
    ∀ (pre : List String) (o : Nat) (l : String) (rest : List String),
      (∀ x ∈ pre, p x = false) → p l = true →
      firstIdxAux p o (pre ++ l :: rest) = some (o + pre.length) := by
  intro pre
  induction pre with
  | nil =>
    intro o l rest _ hl
    simp [firstIdxAux, hl]
  | cons a as ih =>
    intro o l rest h hl
    have ha : p a = false := h a (List.mem_cons_self a as)
    simp only [List.cons_append, firstIdxAux, ha, Bool.false_eq_true, if_false,
      List.append_eq]
    rw [ih (o + 1) l rest (fun x hx => h x (List.mem_cons_of_mem a hx)) hl]
    congr 1
    simp only [List.length_cons]
    omega

/-- C4 counterexample: in `c4buffer` the marker `Task ID: t1` occurs at
lines 1 and 4, so the claimed window is `drop 3` (the last occurrence minus
its banner line) — but the route's `findIndex` anchors at the first
occurrence: the returned window is the whole buffer, and in particular the
line `first-run-line`, which precedes the last occurrence's window, is not
excluded. -/
theorem window_not_anchored_at_last_marker :
    filterTaskLines c4buffer "t1" = c4buffer
      ∧ "first-run-line" ∈ c4buffer.take 3 := by
  constructor
  · decide
  · decide

/-- C4 amended (corrected): the task window starts at the FIRST line of the
buffer containing the task marker, minus one line for the preceding banner
(`Math.max(0, idx-1)`), and is then truncated before the first top-level
execution-start marker found at window index greater than 5 (or runs to the
end of the buffer); when the marker occurs more than once, lines before the
first occurrence's window — not the last's — are the ones excluded. -/
theorem window_anchored_at_first_marker (pre : List String) (l : String)
    (rest : List String) (tid : String)
    (hpre : ∀ x ∈ pre, jsIncludes x ("Task ID: " ++ tid) = false)
    (hl : jsIncludes l ("Task ID: " ++ tid) = true) :
    filterTaskLines (pre ++ l :: rest) tid
      = windowTrunc (pre.drop (pre.length - 1) ++ l :: rest) := by
  have hidx : taskMarkerIdx (pre ++ l :: rest) tid = some pre.length := by
    unfold taskMarkerIdx
    rw [firstIdxAux_pred_false_append _ pre 0 l rest hpre hl]
    norm_num
  have hwin : taskWindow (pre ++ l :: rest) tid
      = pre.drop (pre.length - 1) ++ l :: rest := by
    unfold taskWindow
    rw [hidx]
    show (pre ++ l :: rest).drop (pre.length - 1) = _
    rw [List.drop_append_eq_append_drop]
    have h0 : pre.length - 1 - pre.length = 0 := by omega
    rw [h0, List.drop_zero]
  show windowTrunc (taskWindow (pre ++ l :: rest) tid) = _
  rw [hwin]

/-- Witness for C4 at the duplicate-marker buffer. -/
theorem window_anchored_at_first_marker_witness :
    ((∀ x ∈ ([execStartMarker] : List String),
        jsIncludes x ("Task ID: " ++ "t1") = false)
      ∧ jsIncludes "Task ID: t1" ("Task ID: " ++ "t1") = true)
      ∧ filterTaskLines
          ([execStartMarker] ++ "Task ID: t1" ::
            ["first-run-line", execStartMarker, "Task ID: t1", "second-run-line"])
          "t1"
        = windowTrunc
            (([execStartMarker] : List String).drop
                (([execStartMarker] : List String).length - 1)
              ++ "Task ID: t1" ::
                ["first-run-line", execStartMarker, "Task ID: t1",
                  "second-run-line"]) :=
  ⟨⟨by decide, by decide⟩,
   window_anchored_at_first_marker [execStartMarker] "Task ID: t1"
     ["first-run-line", execStartMarker, "Task ID: t1", "second-run-line"] "t1"
     (by decide) (by decide)⟩

theorem groupGo_stripTs (now1 now2 : String) :
    ∀ (fuel k : Nat) (ls : List String),
      stripTs (groupGo now1 fuel k ls) = stripTs (groupGo now2 fuel k ls) := by
  intro fuel
  induction fuel with
  | zero => intro k ls; rfl
  | succ f ih =>
    intro k ls
    cases ls with
    | nil => rfl
    | cons l rest =>
      cases hbr : branchOf l with
      | none =>
        simp only [groupGo, hbr]
        have h := ih (k + 1) rest
        simp only [stripTs, List.map_cons] at h ⊢
        rw [h]
        rfl
      | some br =>
        simp only [groupGo, hbr]
        have h := ih (k + 1) (collectBlock br 1 rest).2
        simp only [stripTs, List.map_cons] at h ⊢
        rw [h]
        rfl

/-- C5 counterexample: the parser is not a pure function of
`(buffer, taskId)` — two calls at different wall-clock instants return
block sequences that differ (in every block's `timestamp` field, which is
`new Date().toISOString()` at parse time). -/
theorem parse_not_pure_in_buffer_and_task :
    parseTaskLogs "2024-01-01T00:00:00.000Z" c5buffer "t1"
      ≠ parseTaskLogs "2024-01-01T00:00:01.000Z" c5buffer "t1" := by
  decide

/-- C5 amended (corrected): up to the clock-assigned `timestamp` field, the
parser is a pure function of `(buffer, taskId)`: two calls on an identical
buffer and task id produce identical block sequences — same `id`s, same
`message` line lists, same `type`s, in the same order — whatever the two
call instants were. -/
theorem parse_deterministic_up_to_timestamp (now1 now2 : String)
    (lines : List String) (tid : String) :
    stripTs (parseTaskLogs now1 lines tid)
      = stripTs (parseTaskLogs now2 lines tid) := by
  unfold parseTaskLogs groupLogLines
  exact groupGo_stripTs now1 now2 _ 0 _

theorem collectBlock_append (br : GroupBranch) :
    ∀ (n : Nat) (ls : List String),
      (collectBlock br n ls).1 ++ (collectBlock br n ls).2 = ls := by
  intro n ls
  induction ls generalizing n with
  | nil => rfl
  | cons l rest ih =>
    simp only [collectBlock]
    split
    · split
      · simp
      · simp [ih (n + 1)]
    · simp

theorem groupGo_mem (now : String) :
    ∀ (fuel k : Nat) (ls : List String) (b : LogBlock),
      b ∈ groupGo now fuel k ls → ∀ x ∈ b.messageLines, x ∈ ls := by
  intro fuel
  induction fuel with
  | zero =>
    intro k ls b hb
    simp [groupGo] at hb
  | succ f ih =>
    intro k ls b hb x hx
    cases ls with
    | nil => simp [groupGo] at hb
    | cons l rest =>
      simp only [groupGo] at hb
      cases hbr : branchOf l with
      | some br =>
        simp only [hbr] at hb
        rcases List.mem_cons.1 hb with rfl | htail
        · rcases List.mem_cons.1 hx with rfl | hxc
          · exact List.mem_cons_self x rest
          · apply List.mem_cons_of_mem
            rw [← collectBlock_append br 1 rest]
            exact List.mem_append_left _ hxc
        · have hxr := ih (k + 1) (collectBlock br 1 rest).2 b htail x hx
          apply List.mem_cons_of_mem
          rw [← collectBlock_append br 1 rest]
          exact List.mem_append_right _ hxr
      | none =>
        simp only [hbr] at hb
        rcases List.mem_cons.1 hb with rfl | htail
        · rcases List.mem_cons.1 hx with rfl | hxc
          · exact List.mem_cons_self x rest
          · simp at hxc
        · exact List.mem_cons_of_mem _ (ih (k + 1) rest b htail x hx)

theorem findFrom_append (u : List String) :
    ∀ (o : Nat) (rest : List String),
      (∀ (k : Nat) (x : String), u[k]? = some x → 5 < o + k →
        jsIncludes x execStartMarker = false) →
      findMarkerIdxFrom o (u ++ rest) = findMarkerIdxFrom (o + u.length) rest := by
  induction u with
  | nil =>
    intro o rest _
    simp [findMarkerIdxFrom]
  | cons a as ih =>
    intro o rest h
    have ha : (decide (o > 5) && jsIncludes a execStartMarker) = false := by
      by_cases ho : 5 < o
      · have := h 0 a (by simp) (by omega)
        simp [this]
      · simp [ho]
    simp only [List.cons_append, findMarkerIdxFrom, ha, Bool.false_eq_true,
      if_false, List.append_eq]
    rw [ih (o + 1) rest ?_]
    · congr 1
      simp only [List.length_cons]
      omega
    · intro k x hk hlt
      refine h (k + 1) x (by simpa using hk) (by omega)

theorem nextTaskIdx_shape (u : List String) (bline : String) (v : List String)
    (hu : 5 < u.length)
    (hb : jsIncludes bline execStartMarker = true)
    (hfree : ∀ x ∈ u.drop 6, jsIncludes x execStartMarker = false) :
    nextTaskIdx (u ++ bline :: v) = some u.length := by
  unfold nextTaskIdx
  rw [findFrom_append u 0 (bline :: v) ?_]
  · simp only [Nat.zero_add, findMarkerIdxFrom, hb]
    simp [hu]
  · intro k x hk hlt
    apply hfree
    have h6 : 6 ≤ k := by omega
    have hdk : (u.drop 6)[k - 6]? = some x := by
      rw [List.getElem?_drop]
      have : 6 + (k - 6) = k := by omega
      rw [this, hk]
    rw [List.getElem?_eq_some] at hdk
    obtain ⟨hlt2, rfl⟩ := hdk
    exact List.getElem_mem hlt2

/-- C6 counterexample: in `c6buffer` tasks A and B run sequentially, but
B's execution-start marker sits at index 3 of A's window — within the first
six lines, where the route's `index > 5` guard never looks — so parsing
with taskId = A keeps everything and returns a block carrying B's line
`b-secret-line`. -/
theorem window_isolation_fails_near_start :
    blocksContainLine (parseTaskLogs "T" c6buffer "A") "b-secret-line"
      = true := by
  decide

/-- C6 amended (corrected): for a buffer containing sequential tasks A then
B, parsing with taskId = A returns no block with lines at or after B's
execution-start marker **provided** that marker occurs at window index
greater than 5; the window is cut exactly at the marker, and every line of
every returned block belongs to the part of A's window strictly before it.
(When B's marker falls within the first six window lines, the `index > 5`
guard misses it — see the counterexample.) -/
theorem window_isolation_beyond_six (now : String) (lines : List String)
    (tid : String) (u : List String) (bline : String) (v : List String)
    (hw : taskWindow lines tid = u ++ bline :: v)
    (hb : jsIncludes bline execStartMarker = true)
    (hu : 5 < u.length)
    (hfree : ∀ x ∈ u.drop 6, jsIncludes x execStartMarker = false) :
    filterTaskLines lines tid = u
      ∧ ∀ b ∈ parseTaskLogs now lines tid, ∀ x ∈ b.messageLines, x ∈ u := by
  have hnext := nextTaskIdx_shape u bline v hu hb hfree
  have hfl : filterTaskLines lines tid = u := by
    show windowTrunc (taskWindow lines tid) = u
    rw [hw]
    unfold windowTrunc
    rw [hnext]
    show (u ++ bline :: v).take u.length = u
    exact List.take_left u (bline :: v)
  refine ⟨hfl, ?_⟩
  intro b hbmem x hx
  have hparse : parseTaskLogs now lines tid
      = groupGo now u.length 0 u := by
    unfold parseTaskLogs groupLogLines
    rw [hfl]
  rw [hparse] at hbmem
  exact groupGo_mem now u.length 0 u b hbmem x hx

/-- Witness for C6 at a buffer whose second task starts beyond window
index 5. -/
theorem window_isolation_beyond_six_witness :
    (taskWindow c6okBuffer "A"
        = [execStartMarker, "Task ID: A", "a1", "a2", "a3", "a4"]
          ++ execStartMarker :: ["Task ID: B", "b1"]
      ∧ jsIncludes execStartMarker execStartMarker = true
      ∧ 5 < ([execStartMarker, "Task ID: A", "a1", "a2", "a3", "a4"] :
          List String).length
      ∧ (∀ x ∈ ([execStartMarker, "Task ID: A", "a1", "a2", "a3", "a4"] :
          List String).drop 6, jsIncludes x execStartMarker = false))
      ∧ (filterTaskLines c6okBuffer "A"
          = [execStartMarker, "Task ID: A", "a1", "a2", "a3", "a4"]
        ∧ ∀ b ∈ parseTaskLogs "T" c6okBuffer "A", ∀ x ∈ b.messageLines,
            x ∈ ([execStartMarker, "Task ID: A", "a1", "a2", "a3", "a4"] :
              List String)) :=
  ⟨⟨by decide, by decide, by decide, by decide⟩,
   window_isolation_beyond_six "T" c6okBuffer "A"
     [execStartMarker, "Task ID: A", "a1", "a2", "a3", "a4"] execStartMarker
     ["Task ID: B", "b1"] (by decide) (by decide) (by decide) (by decide)⟩
